import Mathlib

set_option linter.unusedVariables false

/-
Verification of the steps-gitlab-pipeline repository (Go).

The repository consists of several near-duplicate command-line programs that
bridge a Bitrise build with GitLab's pipeline/job API.  We shallowly embed the
pure core of each variant:

* the string helpers (`extractLastComponent`, modelled over `String.data`,
  i.e. the list of characters, with Go's `strings.Split(s, "/")` embedded as
  `splitSlash`);
* the status translator (`bitriseBuildStatusToState` from the merge-request
  variant, `buildStatusToState` from the branch/commit variants) and the
  `GitLabStatus` vocabulary with its `IsValid` check;
* the pipeline/job resolvers (`findJobID`/`findPipelineID` from the
  merge-request variant, `findJobAndPipeline` from the branch variant and from
  the by-commit variant, which differ on the `canPlayJob` condition);
* the effectful steps (`publishBitriseStatus`, `publishBuildStatus`,
  `triggerJob`, `triggerPipeline`) as functions that return the list of
  network calls they perform together with an outcome; host-side success of a
  network call is an explicit boolean parameter;
* the `main` control flow of each variant as a function producing the ordered
  list of step invocations (status publish, job trigger) plus a run outcome,
  where Go's `log.Fatalf` is the `fatal` outcome and a nil-pointer
  dereference is the `panicked` outcome.

Namespaces: `MR` is the merge-request-IID variant (first program in main.go),
`Branch` is the by-branch variant (second program in main.go), `Branch2`
holds the third main.go program's publish and trigger steps — that program
repeats the second one's control flow but its `publishBuildStatus` takes a
plain string status with no validity check and its `triggerJob` is the
GraphQL job-play mutation like the merge-request variant's — `Commit` is the
by-commit variant (part_001), and `TriggerRef` is the pipeline-trigger step
(part_002).
-/

/-- Outcome of a run or of one effectful step: normal completion, process
termination via `log.Fatalf` (or an error return), or a runtime panic. -/
inductive RunResult where
  | ok
  | fatal
  | panicked
  deriving DecidableEq, Repr

/-- Step invocations observable in a run of a `main` function, in order:
a status publish (carrying the state string and pipeline id it was invoked
with) or a job-trigger invocation (carrying the job id). -/
inductive Event where
  | publish (state : String) (pipelineID : String)
  | trigger (jobID : String)
  deriving DecidableEq, Repr

/-- Network calls performed by the effectful steps. -/
inductive NetCall where
  | statusREST (commitSHA : String) (state : String) (pipelineID : String)
  | jobPlayREST (jobID : String)
  | jobPlayGraphQL (jobID : String)
  | pipelineTriggerREST (ref : String) (vars : List (String × String))
  deriving DecidableEq, Repr

/-- Job ids of the trigger invocations of a trace, in order. -/
def triggerCalls (events : List Event) : List String :=
  events.filterMap (fun e =>
    match e with
    | .trigger jobID => some jobID
    | .publish _ _ => none)

/-- Pipeline ids of the publish invocations of a trace, in order. -/
def publishCalls (events : List Event) : List (String × String) :=
  events.filterMap (fun e =>
    match e with
    | .publish state pipelineID => some (state, pipelineID)
    | .trigger _ => none)

/-- Embedding of Go's `strings.Split(s, "/")` on the character list of a
string: splits at every `'/'`, keeping empty fields, and always returns at
least one element (`strings.Split("", "/")` is `[""]`). -/
def splitSlash : List Char → List (List Char)
  | [] => [[]]
  | c :: cs =>
    if c = '/' then [] :: splitSlash cs
    else
      match splitSlash cs with
      | [] => [[c]]
      | p :: ps => (c :: p) :: ps

/-- The helper `extractLastComponent` (identical in the branch and by-commit
variants): `parts := strings.Split(fullID, "/"); return parts[len(parts)-1]`.
The index access is modelled with `getLast?`/`getD`; `splitSlash` never
returns `[]`, so the default is never used. -/
def extractLastComponent (fullID : String) : String :=
  let parts := splitSlash fullID.data
  String.mk (parts.getLast?.getD [])

/-- The `GitLabStatus` string type of the branch and by-commit variants. -/
abbrev GitLabStatus := String

namespace GitLabStatus

def Pending : GitLabStatus := "pending"

def Running : GitLabStatus := "running"

def Success : GitLabStatus := "success"

def Failed : GitLabStatus := "failed"

def Canceled : GitLabStatus := "canceled"

def Skipped : GitLabStatus := "skipped"

/-- The `IsValid` method: membership in the closed status enumeration. -/
def IsValid (s : GitLabStatus) : Bool :=
  s == Pending || s == Running || s == Success || s == Failed ||
    s == Canceled || s == Skipped

end GitLabStatus

/-- The translator `bitriseBuildStatusToState` of the merge-request variant
(plain strings on both sides). -/
def bitriseBuildStatusToState (bitriseBuildStatus : String) : String :=
  if bitriseBuildStatus = "0" then "success"
  else if bitriseBuildStatus = "1" then "failed"
  else "pending"

/-- The translator `buildStatusToState` (identical in the branch and
by-commit variants). -/
def buildStatusToState (buildStatus : String) : GitLabStatus :=
  if buildStatus = "0" then GitLabStatus.Success
  else if buildStatus = "1" then GitLabStatus.Failed
  else GitLabStatus.Pending

/-- Job node of the GraphQL responses (identical shape in every variant). -/
structure JobNode where
  id : String
  name : String
  status : String
  canPlayJob : Bool
  deriving DecidableEq, Repr

namespace MR

/-- Pipeline node of the merge-request variant's response (only the short
numeric `iid` is selected by its query). -/
structure Pipeline where
  iid : String
  jobs : List JobNode
  deriving DecidableEq, Repr

/-- The decoded response `Data.Project.MergeRequest.Pipelines.Nodes` of the
merge-request variant. -/
structure Graph where
  pipelines : List Pipeline
  deriving DecidableEq, Repr

/-- The resolver `findJobID`: first job, scanning pipelines then jobs in
response order, whose name equals `jobName` and whose `canPlayJob` flag is
set; `""` when there is none. -/
def findJobID (response : Graph) (jobName : String) : String :=
  match response.pipelines.findSome?
      (fun pipeline => pipeline.jobs.find?
        (fun job => job.name == jobName && job.canPlayJob)) with
  | some job => job.id
  | none => ""

/-- The helper `findPipelineID`: the `iid` of the first pipeline of the
response, `""` when there is none. -/
def findPipelineID (response : Graph) : String :=
  match response.pipelines with
  | pipeline :: _ => pipeline.iid
  | [] => ""

/-- The step `publishBitriseStatus`: builds the status-update request and
sends it; there is no validity check on the status string.  `hostOk` is
whether the host answers 200/201; on any other answer the program dies. -/
def publishBitriseStatus (projectPath pipelineID commitSHA status
    gitlabToken : String) (hostOk : Bool) : List NetCall × RunResult :=
  ([NetCall.statusREST commitSHA status pipelineID],
   if hostOk then RunResult.ok else RunResult.fatal)

/-- The step `triggerJob` of the merge-request variant: a GraphQL job-play
mutation carrying only the job id — it attaches no trigger variables and
performs no precondition check, so the network call is always made.
`hostOk` is whether the host answers 200; `jobPlayErrors` is the decoded
`jobPlay.errors` list of the mutation response, non-empty meaning the play
failed. -/
def triggerJob (jobID gitlabToken : String) (hostOk : Bool)
    (jobPlayErrors : List String) : List NetCall × RunResult :=
  ([NetCall.jobPlayGraphQL jobID],
   if hostOk = false then RunResult.fatal
   else if jobPlayErrors ≠ [] then RunResult.fatal
   else RunResult.ok)

/-- Control flow of the merge-request variant's `main`: validate the
environment, translate the build status, resolve the pipeline id, publish the
status, and only when the raw build status is `"0"` resolve the job id and
invoke the trigger.  `publishOk`/`triggerOk` are the host-side outcomes of
the two effectful steps; a `log.Fatalf` anywhere ends the run. -/
def main (g : Graph) (projectPath mergeRequestIID jobName gitlabToken
    buildStatus buildSHA : String) (publishOk triggerOk : Bool) :
    List Event × RunResult :=
  if projectPath = "" ∨ mergeRequestIID = "" ∨ jobName = "" ∨
      gitlabToken = "" then ([], RunResult.fatal)
  else if buildStatus = "" then ([], RunResult.fatal)
  else
    let pipelineID := findPipelineID g
    if buildSHA = "" ∨ pipelineID = "" then ([], RunResult.fatal)
    else
      let ev := [Event.publish (bitriseBuildStatusToState buildStatus)
        pipelineID]
      if publishOk = false then (ev, RunResult.fatal)
      else if buildStatus = "0" then
        let jobID := findJobID g jobName
        if jobID = "" then (ev, RunResult.fatal)
        else (ev ++ [Event.trigger jobID],
              if triggerOk then RunResult.ok else RunResult.fatal)
      else (ev, RunResult.ok)

end MR

namespace Branch

/-- Pipeline node of the branch variant's response: global `id` and short
numeric `iid`. -/
structure Pipeline where
  id : String
  iid : String
  jobs : List JobNode
  deriving DecidableEq, Repr

/-- Merge-request node of the branch variant's response. -/
structure MergeRequest where
  iid : String
  id : String
  pipelines : List Pipeline
  deriving DecidableEq, Repr

/-- The decoded response `Data.Project.MergeRequests.Nodes` of the branch
variant. -/
structure Graph where
  mergeRequests : List MergeRequest
  deriving DecidableEq, Repr

/-- The resolver `findJobAndPipeline` of the branch variant: first job,
scanning merge requests, pipelines, then jobs in response order, whose name
equals `jobName` and whose `canPlayJob` flag is set, paired with the last
`/`-component of the global id of the pipeline that contains it;
`("", "")` when there is none. -/
def findJobAndPipeline (response : Graph) (jobName : String) :
    String × String :=
  match response.mergeRequests.findSome?
      (fun mergeRequest => mergeRequest.pipelines.findSome?
        (fun pipeline =>
          (pipeline.jobs.find?
            (fun job => job.name == jobName && job.canPlayJob)).map
          (fun job => (job.id, extractLastComponent pipeline.id)))) with
  | some r => r
  | none => ("", "")

/-- The step `publishBuildStatus` (identical check in the by-commit variant):
dies before any network call when the status is not in the closed
enumeration, otherwise sends the status-update request. -/
def publishBuildStatus (projectPath pipelineID commitSHA : String)
    (status : GitLabStatus) (gitlabToken buildURL : String)
    (hostOk : Bool) : List NetCall × RunResult :=
  if status.IsValid = false then ([], RunResult.fatal)
  else
    ([NetCall.statusREST commitSHA status pipelineID],
     if hostOk then RunResult.ok else RunResult.fatal)

/-- The step `triggerJob` of the branch variant: dies before any network
call when one of the three Bitrise trigger variables is empty, otherwise
sends the job-play request for the last `/`-component of the job id. -/
def triggerJob (projectPath jobID gitlabToken apiToken appSlug
    buildSlug : String) (hostOk : Bool) : List NetCall × RunResult :=
  let jobVariables := [("BITRISE_API_TOKEN", apiToken),
    ("BITRISE_APP_SLUG", appSlug), ("BITRISE_BUILD_SLUG", buildSlug)]
  if jobVariables.any (fun v => v.2 == "") then ([], RunResult.fatal)
  else
    ([NetCall.jobPlayREST (extractLastComponent jobID)],
     if hostOk then RunResult.ok else RunResult.fatal)

/-- Control flow of the branch variant's `main`: validate the environment
(the build status itself is not part of the emptiness check), translate,
resolve job and pipeline, die when either is empty, publish the status
(with `publishBuildStatus`'s validity check inlined), and trigger the job
only when the translated status is `Success`. -/
def main (g : Graph) (projectPath branchName jobName gitlabToken buildStatus
    buildSHA buildURL : String) (publishOk triggerOk : Bool) :
    List Event × RunResult :=
  if projectPath = "" ∨ branchName = "" ∨ jobName = "" ∨ gitlabToken = "" ∨
      buildSHA = "" ∨ buildURL = "" then ([], RunResult.fatal)
  else
    let status := buildStatusToState buildStatus
    let r := findJobAndPipeline g jobName
    if r.1 = "" ∨ r.2 = "" then ([], RunResult.fatal)
    else if status.IsValid = false then ([], RunResult.fatal)
    else
      let ev := [Event.publish status r.2]
      if publishOk = false then (ev, RunResult.fatal)
      else if status = GitLabStatus.Success then
        (ev ++ [Event.trigger r.1],
         if triggerOk then RunResult.ok else RunResult.fatal)
      else (ev, RunResult.ok)

end Branch

namespace Branch2

/-- The step `publishBuildStatus` of the third main.go program: unlike the
second program's, it takes the status as a plain string and has no
`IsValid` check — it builds the form data and sends the status-update
request unconditionally. -/
def publishBuildStatus (projectPath pipelineID commitSHA status gitlabToken
    buildURL : String) (hostOk : Bool) : List NetCall × RunResult :=
  ([NetCall.statusREST commitSHA status pipelineID],
   if hostOk then RunResult.ok else RunResult.fatal)

/-- The step `triggerJob` of the third main.go program: the same GraphQL
job-play mutation as the merge-request variant's — only the job id is sent,
no trigger variables are attached and no precondition is checked. -/
def triggerJob (jobID gitlabToken : String) (hostOk : Bool)
    (jobPlayErrors : List String) : List NetCall × RunResult :=
  ([NetCall.jobPlayGraphQL jobID],
   if hostOk = false then RunResult.fatal
   else if jobPlayErrors ≠ [] then RunResult.fatal
   else RunResult.ok)

end Branch2

namespace Commit

/-- Pipeline node of the by-commit variant's response. -/
structure Pipeline where
  id : String
  iid : String
  status : String
  jobs : List JobNode
  deriving DecidableEq, Repr

/-- The decoded response `Data.Project.Pipelines.Nodes` of the by-commit
variant. -/
structure Graph where
  pipelines : List Pipeline
  deriving DecidableEq, Repr

/-- Process environment of the by-commit variant, one field per environment
variable it reads. -/
structure Env where
  gitlab_project_path : String
  gitlab_branch_name : String
  gitlab_job_name : String
  gitlab_token : String
  bitrise_build_status : String
  bitrise_git_commit : String
  bitrise_build_url : String
  pr : String
  deriving DecidableEq, Repr

/-- Values produced by the by-commit variant's `fetchEnvVars`: the commit SHA
and branch name are pointers in the source, modelled as `Option`. -/
structure EnvVars where
  projectPath : String
  branchName : Option String
  jobName : String
  gitlabToken : String
  buildStatus : String
  buildSHA : Option String
  buildURL : String
  deriving DecidableEq, Repr

/-- The by-commit variant's `fetchEnvVars`: collects the missing required
variables (`bitrise_git_commit` is deliberately not among them), dies when
any is missing, and returns a `none` commit SHA when `bitrise_git_commit` is
unset and a `none` branch name when `PR` is `"false"`. -/
def fetchEnvVars (e : Env) : Option EnvVars :=
  let missingVars :=
    (if e.gitlab_project_path = "" then ["gitlab_project_path"] else []) ++
    (if e.gitlab_job_name = "" then ["gitlab_job_name"] else []) ++
    (if e.gitlab_token = "" then ["gitlab_token"] else []) ++
    (if e.bitrise_build_url = "" then ["bitrise_build_url"] else [])
  if missingVars ≠ [] then none
  else
    some { projectPath := e.gitlab_project_path
           branchName := if e.pr = "false" then none
             else some e.gitlab_branch_name
           jobName := e.gitlab_job_name
           gitlabToken := e.gitlab_token
           buildStatus := e.bitrise_build_status
           buildSHA := if e.bitrise_git_commit ≠ ""
             then some e.bitrise_git_commit else none
           buildURL := e.bitrise_build_url }

/-- The resolver `findJobAndPipeline` of the by-commit variant: first job
whose name equals `jobName` — the `canPlayJob` condition is commented out in
the source — paired with the last `/`-component of the global id of the
pipeline that contains it; `("", "")` when there is none. -/
def findJobAndPipeline (response : Graph) (jobName : String) :
    String × String :=
  match response.pipelines.findSome?
      (fun pipeline =>
        (pipeline.jobs.find? (fun job => job.name == jobName)).map
        (fun job => (job.id, extractLastComponent pipeline.id))) with
  | some r => r
  | none => ("", "")

/-- The helper `safeString`: a pointer dereference with a fallback. -/
def safeString (ptr : Option String) (fallback : String) : String :=
  match ptr with
  | none => fallback
  | some s => s

/-- Control flow of the by-commit variant's `main`: fetch the environment,
translate the build status, then pass `*buildSHA` to the pipeline query —
an unconditional dereference of the optional commit SHA, which panics when
it is `none` — then resolve job and pipeline, die when either is empty, and
trigger when the status is `Success`.  The `publishBuildStatus` call of this
variant is commented out in the source, so no publish invocation ever
appears in the trace. -/
def main (e : Env) (g : Graph) (triggerOk : Bool) : List Event × RunResult :=
  match fetchEnvVars e with
  | none => ([], RunResult.fatal)
  | some v =>
    let status := buildStatusToState v.buildStatus
    match v.buildSHA with
    | none => ([], RunResult.panicked)
    | some _sha =>
      let r := findJobAndPipeline g v.jobName
      if r.1 = "" ∨ r.2 = "" then ([], RunResult.fatal)
      else if status = GitLabStatus.Success then
        ([Event.trigger r.1],
         if triggerOk then RunResult.ok else RunResult.fatal)
      else ([], RunResult.ok)

end Commit

namespace TriggerRef

/-- Step configuration of the pipeline-trigger variant (all four entries are
required by its configuration parser). -/
structure Config where
  privateToken : String
  projectID : String
  gitRef : String
  apiBaseURL : String
  deriving DecidableEq, Repr

/-- The step `triggerPipeline` of part_002: fall back to
`BITRISE_GIT_BRANCH` when the configured ref is empty, fail when both are
empty, and otherwise send the pipeline-trigger request carrying the three
Bitrise variables read from the environment — with no emptiness check on
them.  `hostStatusCode` is the HTTP status the host answers with. -/
def triggerPipeline (cfg : Config) (bitriseGitBranch apiToken appSlug
    buildSlug : String) (hostStatusCode : Nat) :
    List NetCall × RunResult :=
  let ref := if cfg.gitRef = "" then bitriseGitBranch else cfg.gitRef
  if ref = "" then ([], RunResult.fatal)
  else
    let vars := [("BITRISE_API_TOKEN", apiToken),
      ("BITRISE_APP_SLUG", appSlug), ("BITRISE_BUILD_SLUG", buildSlug)]
    ([NetCall.pipelineTriggerREST ref vars],
     if 200 ≤ hostStatusCode ∧ hostStatusCode < 300 then RunResult.ok
     else RunResult.fatal)

end TriggerRef

/-- Modelled from the spec (refinement reference for claim comparison): the
first job, in pipelines-then-jobs iteration order, whose name equals the
requested name, regardless of its `canPlayJob` flag. -/
def specFirstJobIdByName (g : MR.Graph) (jobName : String) : String :=
  match (g.pipelines.flatMap MR.Pipeline.jobs).find?
      (fun job => job.name == jobName) with
  | some job => job.id
  | none => ""

/-- Modelled from the spec as amended: the first job, in pipelines-then-jobs
iteration order, whose name equals the requested name and whose `canPlayJob`
flag is set. -/
def specFirstPlayableJobIdByName (g : MR.Graph) (jobName : String) : String :=
  match (g.pipelines.flatMap MR.Pipeline.jobs).find?
      (fun job => job.name == jobName && job.canPlayJob) with
  | some job => job.id
  | none => ""

/-- Modelled from the spec (by-commit shape): the first job, in
pipelines-then-jobs iteration order, whose name equals the requested name,
regardless of its `canPlayJob` flag. -/
def specFirstJobIdByNameCommit (g : Commit.Graph) (jobName : String) :
    String :=
  match (g.pipelines.flatMap Commit.Pipeline.jobs).find?
      (fun job => job.name == jobName) with
  | some job => job.id
  | none => ""

/-- Modelled from the spec as amended (branch shape): the first job, in
merge-requests-then-pipelines-then-jobs iteration order, whose name equals
the requested name and whose `canPlayJob` flag is set. -/
def specFirstPlayableJobIdByNameBranch (g : Branch.Graph)
    (jobName : String) : String :=
  match ((g.mergeRequests.flatMap Branch.MergeRequest.pipelines).flatMap
      Branch.Pipeline.jobs).find?
      (fun job => job.name == jobName && job.canPlayJob) with
  | some job => job.id
  | none => ""

/-! ## Helper lemmas -/

/-- Splitting a character list never yields the empty list of parts. -/
theorem splitSlash_ne_nil : ∀ (l : List Char), splitSlash l ≠ [] := by
  intro l
  induction l with
  | nil => simp [splitSlash]
  | cons c cs ih =>
    simp only [splitSlash]
    split
    · simp
    · split
      · simp
      · simp

/-- Splitting a character list without a separator yields that list alone. -/
theorem splitSlash_no_slash :
    ∀ (l : List Char), '/' ∉ l → splitSlash l = [l] := by
  intro l h
  induction l with
  | nil => rfl
  | cons c cs ih =>
    have hc : ¬c = '/' := fun e => h (by simp [e])
    have hcs : '/' ∉ cs := fun m => h (List.mem_cons_of_mem _ m)
    unfold splitSlash
    rw [if_neg hc, ih hcs]

/-- Unfolding equation of `splitSlash` at a separator character. -/
theorem splitSlash_cons_slash (t : List Char) :
    splitSlash ('/' :: t) = [] :: splitSlash t := by
  show (if '/' = '/' then [] :: splitSlash t
    else
      match splitSlash t with
      | [] => [['/']]
      | p :: ps => ('/' :: p) :: ps) = [] :: splitSlash t
  rw [if_pos rfl]

/-- Unfolding equation of `splitSlash` at a non-separator character. -/
theorem splitSlash_cons_ne (c : Char) (hc : ¬c = '/') (t : List Char) :
    splitSlash (c :: t) =
      match splitSlash t with
      | [] => [[c]]
      | p :: ps => (c :: p) :: ps := by
  show (if c = '/' then [] :: splitSlash t
    else
      match splitSlash t with
      | [] => [[c]]
      | p :: ps => (c :: p) :: ps) =
    match splitSlash t with
    | [] => [[c]]
    | p :: ps => (c :: p) :: ps
  rw [if_neg hc]

/-- Splitting distributes over a separator occurrence. -/
theorem splitSlash_append_slash : ∀ (a b : List Char),
    splitSlash (a ++ '/' :: b) = splitSlash a ++ splitSlash b := by
  intro a b
  induction a with
  | nil => simp [splitSlash]
  | cons c cs ih =>
    rw [List.cons_append]
    by_cases hc : c = '/'
    · subst hc
      rw [splitSlash_cons_slash, splitSlash_cons_slash, ih, List.cons_append]
    · obtain ⟨p, ps, hps⟩ : ∃ p ps, splitSlash cs = p :: ps := by
        cases hcase : splitSlash cs with
        | nil => exact absurd hcase (splitSlash_ne_nil cs)
        | cons p ps => exact ⟨p, ps, rfl⟩
      rw [splitSlash_cons_ne c hc, splitSlash_cons_ne c hc, ih, hps,
        List.cons_append]
      rfl

/-- Searching a flattened list of lists is searching the lists in order. -/
theorem find?_flatMap {α β : Type} (f : α → List β) (q : β → Bool) :
    ∀ (l : List α),
      (l.flatMap f).find? q = l.findSome? (fun a => (f a).find? q) := by
  intro l
  induction l with
  | nil => rfl
  | cons a l ih =>
    rw [List.flatMap_cons, List.find?_append, ih, List.findSome?_cons]
    cases h : (f a).find? q <;> simp [h, Option.or]

/-- A `findSome?` over a function that is `none` on every element is
`none`. -/
theorem findSome?_eq_none_of {α β : Type} (l : List α) (f : α → Option β)
    (h : ∀ a ∈ l, f a = none) : l.findSome? f = none := by
  induction l with
  | nil => rfl
  | cons a l ih =>
    rw [List.findSome?_cons, h a (by simp)]
    exact ih (fun x hx => h x (List.mem_cons_of_mem _ hx))

/-- A `findSome?` hit comes from some element of the list. -/
theorem exists_of_findSome?_some {α β : Type} {l : List α} {f : α → Option β}
    {b : β} (h : l.findSome? f = some b) : ∃ a ∈ l, f a = some b :=
  List.exists_of_findSome?_eq_some h

/-- First component of the by-commit resolver's match, separated from the
pipeline-id component. -/
theorem commit_resolver_fst (ps : List Commit.Pipeline)
    (q : JobNode → Bool) :
    (match ps.findSome? (fun p => (p.jobs.find? q).map
        (fun j => (j.id, extractLastComponent p.id))) with
     | some r => r.1
     | none => "") =
    (match ps.findSome? (fun p => p.jobs.find? q) with
     | some j => j.id
     | none => "") := by
  induction ps with
  | nil => rfl
  | cons p ps ih =>
    rw [List.findSome?_cons, List.findSome?_cons]
    cases h : p.jobs.find? q <;> simp [h, ih]

/-- A `findSome?` over an appended list tries the first list first. -/
theorem findSome?_append {α β : Type} (f : α → Option β) :
    ∀ (l₁ l₂ : List α), (l₁ ++ l₂).findSome? f =
      match l₁.findSome? f with
      | some b => some b
      | none => l₂.findSome? f := by
  intro l₁ l₂
  induction l₁ with
  | nil => rfl
  | cons a l ih =>
    rw [List.cons_append, List.findSome?_cons, List.findSome?_cons]
    cases h : f a <;> simp [h, ih]

/-- A `findSome?` over a flattened list of lists searches the inner lists
in order. -/
theorem findSome?_flatMap {α β γ : Type} (f : α → List β) (h : β → Option γ) :
    ∀ (l : List α), (l.flatMap f).findSome? h =
      l.findSome? (fun a => (f a).findSome? h) := by
  intro l
  induction l with
  | nil => rfl
  | cons a l ih =>
    rw [List.flatMap_cons, findSome?_append, ih, List.findSome?_cons]
    rfl

/-- Two `findSome?` scans agree after mapping when they agree elementwise
after mapping. -/
theorem findSome?_congr_map {α β γ δ : Type} (F : α → Option β)
    (G : α → Option γ) (f : β → δ) (g : γ → δ)
    (hfg : ∀ a, (F a).map f = (G a).map g) :
    ∀ (l : List α), (l.findSome? F).map f = (l.findSome? G).map g := by
  intro l
  induction l with
  | nil => rfl
  | cons a l ih =>
    rw [List.findSome?_cons, List.findSome?_cons]
    cases hF : F a with
    | none =>
      cases hG : G a with
      | none => simpa using ih
      | some c =>
        have hone := hfg a
        rw [hF, hG] at hone
        simp at hone
    | some b =>
      cases hG : G a with
      | none =>
        have hone := hfg a
        rw [hF, hG] at hone
        simp at hone
      | some c =>
        have hone := hfg a
        rw [hF, hG] at hone
        simpa using hone

/-- First component of the branch resolver's nested match, separated from
the pipeline-id component. -/
theorem branch_resolver_fst (mrs : List Branch.MergeRequest)
    (q : JobNode → Bool) :
    (mrs.findSome? (fun mergeRequest => mergeRequest.pipelines.findSome?
        (fun pipeline => (pipeline.jobs.find? q).map
          (fun job => (job.id, extractLastComponent pipeline.id))))).map
      Prod.fst =
    (mrs.findSome? (fun mergeRequest => mergeRequest.pipelines.findSome?
        (fun pipeline => pipeline.jobs.find? q))).map JobNode.id :=
  findSome?_congr_map _ _ _ _
    (fun mr => findSome?_congr_map _ _ _ _
      (fun p => by cases h : p.jobs.find? q <;> simp [h]) mr.pipelines)
    mrs

/-! ## Claim C10 -/

/-- C10: for every input string, `extractLastComponent` returns the substring
after the final `/` separator (the whole string when no `/` occurs, the empty
string when the input is empty or ends in `/`, the latter being the `b = []`
instance of the third conjunct), and it never panics: splitting always yields
at least one element, so the index `parts[len(parts)-1]` is in range. -/
theorem extractLastComponent_spec :
    (∀ s : String, splitSlash s.data ≠ []) ∧
    (∀ s : String, '/' ∉ s.data → extractLastComponent s = s) ∧
    (∀ a b : List Char, '/' ∉ b →
       extractLastComponent (String.mk (a ++ '/' :: b)) = String.mk b) ∧
    extractLastComponent "" = "" := by
  refine ⟨fun s => splitSlash_ne_nil s.data, ?_, ?_, rfl⟩
  · intro s h
    obtain ⟨d⟩ := s
    show String.mk ((splitSlash (String.mk d).data).getLast?.getD []) =
      String.mk d
    rw [show (String.mk d).data = d from rfl, splitSlash_no_slash d h]
    rfl
  · intro a b h
    show String.mk
        ((splitSlash (String.mk (a ++ '/' :: b)).data).getLast?.getD []) =
      String.mk b
    rw [show (String.mk (a ++ '/' :: b)).data = a ++ '/' :: b from rfl,
      splitSlash_append_slash, splitSlash_no_slash b h,
      List.getLast?_concat]
    rfl

/-- Witness for C10 at concrete inputs: a string without a separator, a
string with one separator, and a string ending in a separator. -/
theorem extractLastComponent_spec_witness :
    extractLastComponent "abc" = "abc" ∧
    extractLastComponent (String.mk (['a'] ++ '/' :: ['b'])) =
      String.mk ['b'] ∧
    extractLastComponent (String.mk (['a'] ++ '/' :: [])) = String.mk [] :=
  ⟨extractLastComponent_spec.2.1 "abc" (by decide),
   extractLastComponent_spec.2.2.1 ['a'] ['b'] (by decide),
   extractLastComponent_spec.2.2.1 ['a'] [] (by decide)⟩

/-! ## Claim C3 -/

/-- C3: the status translators are total pure functions over all strings,
mapping `"0"` to success, `"1"` to failed, and every other string (the empty
string included) to pending, in both the merge-request variant
(`bitriseBuildStatusToState`) and the branch/commit variants
(`buildStatusToState`). -/
theorem translator_total_spec :
    bitriseBuildStatusToState "0" = "success" ∧
    bitriseBuildStatusToState "1" = "failed" ∧
    (∀ s : String, s ≠ "0" → s ≠ "1" →
       bitriseBuildStatusToState s = "pending") ∧
    buildStatusToState "0" = GitLabStatus.Success ∧
    buildStatusToState "1" = GitLabStatus.Failed ∧
    (∀ s : String, s ≠ "0" → s ≠ "1" →
       buildStatusToState s = GitLabStatus.Pending) := by
  refine ⟨rfl, rfl, ?_, rfl, rfl, ?_⟩ <;>
    · intro s h0 h1
      simp [bitriseBuildStatusToState, buildStatusToState, h0, h1]

/-- Witness for C3 at unrecognized outcome codes, the empty string among
them. -/
theorem translator_total_spec_witness :
    bitriseBuildStatusToState "7" = "pending" ∧
    buildStatusToState "" = GitLabStatus.Pending :=
  ⟨translator_total_spec.2.2.1 "7" (by decide) (by decide),
   translator_total_spec.2.2.2.2.2 "" (by decide) (by decide)⟩

/-! ## Claim C1 -/

/-- Graph with one pipeline holding two jobs named `deploy`, the first not
playable, the second playable. -/
def gTwoDeployFirstUnplayable : MR.Graph :=
  ⟨[⟨"7", [⟨"gid://gitlab/Ci::Build/5", "deploy", "manual", false⟩,
           ⟨"gid://gitlab/Ci::Build/6", "deploy", "manual", true⟩]⟩]⟩

/-- Counterexample to C1 as stated: `findJobID` does not return the first
job whose name matches regardless of `canPlayJob` — it skips the first,
non-playable `deploy` job and returns the second one, so it differs from the
spec-worded first-match-regardless-of-playability selection. -/
theorem findJobID_not_playability_blind :
    MR.findJobID gTwoDeployFirstUnplayable "deploy" =
      "gid://gitlab/Ci::Build/6" ∧
    specFirstJobIdByName gTwoDeployFirstUnplayable "deploy" =
      "gid://gitlab/Ci::Build/5" ∧
    MR.findJobID gTwoDeployFirstUnplayable "deploy" ≠
      specFirstJobIdByName gTwoDeployFirstUnplayable "deploy" := by
  refine ⟨rfl, rfl, ?_⟩
  decide

/-- C1 as amended: `findJobID` (merge-request variant) and
`findJobAndPipeline` (branch variant) return the first job, in the graph's
response iteration order, whose name matches AND whose `canPlayJob` flag is
set; only the by-commit variant's `findJobAndPipeline` (whose `canPlayJob`
condition is commented out) returns the first job whose name matches
regardless of `canPlayJob`. -/
theorem resolver_first_match_policy :
    (∀ (g : MR.Graph) (jobName : String),
       MR.findJobID g jobName = specFirstPlayableJobIdByName g jobName) ∧
    (∀ (g : Branch.Graph) (jobName : String),
       (Branch.findJobAndPipeline g jobName).1 =
         specFirstPlayableJobIdByNameBranch g jobName) ∧
    (∀ (g : Commit.Graph) (jobName : String),
       (Commit.findJobAndPipeline g jobName).1 =
         specFirstJobIdByNameCommit g jobName) := by
  refine ⟨?_, ?_, ?_⟩
  · intro g jobName
    rw [MR.findJobID, specFirstPlayableJobIdByName, find?_flatMap]
  · intro g jobName
    rw [specFirstPlayableJobIdByNameBranch, find?_flatMap,
      findSome?_flatMap, Branch.findJobAndPipeline]
    have hmap := branch_resolver_fst g.mergeRequests
      (fun job => job.name == jobName && job.canPlayJob)
    cases hF : g.mergeRequests.findSome?
        (fun mergeRequest => mergeRequest.pipelines.findSome?
          (fun pipeline => (pipeline.jobs.find?
              (fun job => job.name == jobName && job.canPlayJob)).map
            (fun job => (job.id, extractLastComponent pipeline.id)))) with
    | none =>
      rw [hF] at hmap
      cases hG : g.mergeRequests.findSome?
          (fun mergeRequest => mergeRequest.pipelines.findSome?
            (fun pipeline => pipeline.jobs.find?
              (fun job => job.name == jobName && job.canPlayJob))) with
      | none => rfl
      | some j =>
        rw [hG, Option.map_none', Option.map_some'] at hmap
        exact absurd hmap (by simp)
    | some r =>
      rw [hF] at hmap
      cases hG : g.mergeRequests.findSome?
          (fun mergeRequest => mergeRequest.pipelines.findSome?
            (fun pipeline => pipeline.jobs.find?
              (fun job => job.name == jobName && job.canPlayJob))) with
      | none =>
        rw [hG, Option.map_some', Option.map_none'] at hmap
        exact absurd hmap (by simp)
      | some j =>
        rw [hG, Option.map_some', Option.map_some'] at hmap
        exact Option.some.inj hmap
  · intro g jobName
    rw [specFirstJobIdByNameCommit, find?_flatMap, Commit.findJobAndPipeline]
    rw [← commit_resolver_fst g.pipelines (fun job => job.name == jobName)]
    cases g.pipelines.findSome?
        (fun p => (p.jobs.find? (fun job => job.name == jobName)).map
          (fun j => (j.id, extractLastComponent p.id))) with
    | none => rfl
    | some r => rfl

/-! ## Claim C7 -/

/-- C7: on a graph with zero pipelines, or whose pipelines all have zero
jobs, both `findJobAndPipeline` resolvers return the empty not-found result
`("", "")` — no error, no panic (the functions are total). The zero-pipeline
and zero-merge-request cases are the vacuous instances of the hypotheses. -/
theorem resolver_empty_graph_not_found (gB : Branch.Graph)
    (gC : Commit.Graph) (jobName : String)
    (hB : ∀ mr ∈ gB.mergeRequests, ∀ p ∈ mr.pipelines, p.jobs = [])
    (hC : ∀ p ∈ gC.pipelines, p.jobs = []) :
    Branch.findJobAndPipeline gB jobName = ("", "") ∧
    Commit.findJobAndPipeline gC jobName = ("", "") := by
  constructor
  · rw [Branch.findJobAndPipeline,
      findSome?_eq_none_of _ _ (fun mr hmr =>
        findSome?_eq_none_of _ _ (fun p hp => by
          rw [hB mr hmr p hp]
          rfl))]
  · rw [Commit.findJobAndPipeline,
      findSome?_eq_none_of _ _ (fun p hp => by
        rw [hC p hp]
        rfl)]

/-- Witness for C7: a branch-variant graph with one merge request whose one
pipeline has no jobs, and a by-commit graph with no pipelines at all. -/
theorem resolver_empty_graph_not_found_witness :
    Branch.findJobAndPipeline
        ⟨[⟨"1", "gid://gitlab/MergeRequest/9",
           [⟨"gid://gitlab/Ci::Pipeline/42", "42", []⟩]⟩]⟩ "deploy" =
      ("", "") ∧
    Commit.findJobAndPipeline ⟨[]⟩ "deploy" = ("", "") :=
  resolver_empty_graph_not_found
    ⟨[⟨"1", "gid://gitlab/MergeRequest/9",
       [⟨"gid://gitlab/Ci::Pipeline/42", "42", []⟩]⟩]⟩
    ⟨[]⟩ "deploy" (by simp) (by simp)

/-! ## Claim C4 -/

/-- Graph with two pipelines where the job named `deploy` lives only in the
second pipeline (numeric id `42`), while the first pipeline has id `41`. -/
def gMatchInSecondPipeline : MR.Graph :=
  ⟨[⟨"41", [⟨"gid://gitlab/Ci::Build/3", "build", "success", true⟩]⟩,
    ⟨"42", [⟨"gid://gitlab/Ci::Build/77", "deploy", "manual", true⟩]⟩]⟩

/-- Counterexample to C4 as stated: in the merge-request variant the
resolved target is the pair `(findJobID, findPipelineID)`, and
`findPipelineID` returns the FIRST pipeline's short id unconditionally, so
with the matched job in the second pipeline the pipeline id (`"41"`) is
taken from a pipeline other than the one owning the matched job (`"42"`). -/
theorem findPipelineID_not_owning_pipeline :
    MR.findJobID gMatchInSecondPipeline "deploy" =
      "gid://gitlab/Ci::Build/77" ∧
    MR.findPipelineID gMatchInSecondPipeline = "41" ∧
    MR.findPipelineID gMatchInSecondPipeline ≠ "42" := by
  refine ⟨rfl, rfl, ?_⟩
  decide

/-- C4 as amended: in the `findJobAndPipeline` variants the resolved pair is
indeed the matched job's id together with the short numeric id extracted
from the global id of the pipeline that owns that job (scenario A holds
there); the merge-request variant instead pairs the matched job with
`findPipelineID`, the first pipeline's short id, which may belong to a
pipeline other than the matched job's. -/
theorem resolved_pair_from_owning_pipeline (g : Branch.Graph)
    (jobName jid pid : String)
    (h : Branch.findJobAndPipeline g jobName = (jid, pid)) (hne : jid ≠ "") :
    ∃ mr ∈ g.mergeRequests, ∃ p ∈ mr.pipelines, ∃ j ∈ p.jobs,
      j.name = jobName ∧ j.canPlayJob = true ∧ jid = j.id ∧
      pid = extractLastComponent p.id := by
  revert h
  cases hE : g.mergeRequests.findSome?
      (fun mergeRequest => mergeRequest.pipelines.findSome?
        (fun pipeline =>
          (pipeline.jobs.find?
            (fun job => job.name == jobName && job.canPlayJob)).map
          (fun job => (job.id, extractLastComponent pipeline.id)))) with
  | none =>
    intro h
    rw [Branch.findJobAndPipeline, hE] at h
    injection h with h1 h2
    exact absurd h1.symm hne
  | some r =>
    intro h
    rw [Branch.findJobAndPipeline, hE] at h
    subst h
    obtain ⟨mr, hmr, hmrE⟩ := exists_of_findSome?_some hE
    obtain ⟨p, hp, hpE⟩ := exists_of_findSome?_some hmrE
    cases hf : p.jobs.find?
        (fun job => job.name == jobName && job.canPlayJob) with
    | none =>
      rw [hf] at hpE
      exact absurd hpE (by simp)
    | some j =>
      rw [hf] at hpE
      have hq := List.find?_some hf
      rw [Bool.and_eq_true] at hq
      obtain ⟨hqname, hqplay⟩ := hq
      refine ⟨mr, hmr, p, hp, j, List.mem_of_find?_eq_some hf,
        by exact beq_iff_eq.mp hqname, hqplay, ?_, ?_⟩
      · exact (by simpa using congrArg Prod.fst (Option.some.inj hpE) :
          j.id = jid).symm
      · exact (by simpa using congrArg Prod.snd (Option.some.inj hpE) :
          extractLastComponent p.id = pid).symm

/-- Scenario A graph of the spec: one merge request, one pipeline with
global id ending in `/42`, one job named `deploy` with id ending in `/77`. -/
def gScenarioA : Branch.Graph :=
  ⟨[⟨"1", "gid://gitlab/MergeRequest/9",
     [⟨"gid://gitlab/Ci::Pipeline/42", "42",
       [⟨"gid://gitlab/Ci::Build/77", "deploy", "manual", true⟩]⟩]⟩]⟩

/-- Witness for C4 (amended) at the spec's scenario A graph. -/
theorem resolved_pair_from_owning_pipeline_witness :
    ∃ mr ∈ gScenarioA.mergeRequests, ∃ p ∈ mr.pipelines, ∃ j ∈ p.jobs,
      j.name = "deploy" ∧ j.canPlayJob = true ∧
      "gid://gitlab/Ci::Build/77" = j.id ∧
      "42" = extractLastComponent p.id :=
  resolved_pair_from_owning_pipeline gScenarioA "deploy"
    "gid://gitlab/Ci::Build/77" "42" (by decide) (by decide)

/-! ## Claim C5 -/

/-- Counterexample to C5 as stated: the pipeline-trigger step of part_002
performs its network call even though all three trigger variables are empty
— the form data simply carries the empty values — instead of failing with a
precondition error and zero network calls. -/
theorem triggerPipeline_sends_with_empty_variables :
    TriggerRef.triggerPipeline
        ⟨"secret", "123", "main", "https://gitlab.com/api/v4"⟩
        "" "" "" "" 201 =
      ([NetCall.pipelineTriggerREST "main"
          [("BITRISE_API_TOKEN", ""), ("BITRISE_APP_SLUG", ""),
           ("BITRISE_BUILD_SLUG", "")]],
       RunResult.ok) ∧
    (TriggerRef.triggerPipeline
        ⟨"secret", "123", "main", "https://gitlab.com/api/v4"⟩
        "" "" "" "" 201).1.length = 1 := by
  constructor
  · rfl
  · rfl

/-- C5 as amended: the REST job-play trigger (`triggerJob` of the second
main.go program, identical in part_001) does fail, with zero network calls,
when any of the three trigger variables is empty; part_002's pipeline
trigger sends its request regardless (the counterexample above), and the
GraphQL job-play triggers of the first and third main.go programs attach no
trigger variables at all and always perform their network call. -/
theorem triggerJob_empty_variable_no_network (projectPath jobID gitlabToken
    apiToken appSlug buildSlug : String) (hostOk : Bool)
    (jobPlayErrors : List String)
    (h : apiToken = "" ∨ appSlug = "" ∨ buildSlug = "") :
    Branch.triggerJob projectPath jobID gitlabToken apiToken appSlug
      buildSlug hostOk = ([], RunResult.fatal) ∧
    (MR.triggerJob jobID gitlabToken hostOk jobPlayErrors).1 =
      [NetCall.jobPlayGraphQL jobID] ∧
    (Branch2.triggerJob jobID gitlabToken hostOk jobPlayErrors).1 =
      [NetCall.jobPlayGraphQL jobID] := by
  refine ⟨?_, rfl, rfl⟩
  rcases h with h | h | h <;> simp [Branch.triggerJob, h]

/-- Witness for C5 (amended) with an empty API token. -/
theorem triggerJob_empty_variable_no_network_witness :
    Branch.triggerJob "group/proj" "gid://gitlab/Ci::Build/77" "token" ""
      "app-slug" "build-slug" true = ([], RunResult.fatal) ∧
    (MR.triggerJob "gid://gitlab/Ci::Build/77" "token" true []).1 =
      [NetCall.jobPlayGraphQL "gid://gitlab/Ci::Build/77"] ∧
    (Branch2.triggerJob "gid://gitlab/Ci::Build/77" "token" true []).1 =
      [NetCall.jobPlayGraphQL "gid://gitlab/Ci::Build/77"] :=
  triggerJob_empty_variable_no_network "group/proj"
    "gid://gitlab/Ci::Build/77" "token" "" "app-slug" "build-slug" true []
    (Or.inl rfl)

/-! ## Claim C6 -/

/-- Counterexample to C6 as stated: the merge-request variant's
`publishBitriseStatus` has no validity check, so with the out-of-enumeration
status `"bogus"` it still performs its network call (carrying that status)
instead of failing before any network call. -/
theorem publishBitriseStatus_sends_invalid_status :
    GitLabStatus.IsValid "bogus" = false ∧
    MR.publishBitriseStatus "group/proj" "42" "abc123" "bogus" "token"
        true =
      ([NetCall.statusREST "abc123" "bogus" "42"], RunResult.ok) ∧
    (MR.publishBitriseStatus "group/proj" "42" "abc123" "bogus" "token"
        true).1.length ≠ 0 := by
  refine ⟨by decide, rfl, by decide⟩

/-- C6 as amended: `publishBuildStatus` of the second main.go program and of
part_001 does reject a status outside the closed enumeration before any
network call; the merge-request variant's `publishBitriseStatus` (the
counterexample above) and the third main.go program's `publishBuildStatus`
perform their network call without validating the status string (their
callers pass translator output, which is always in the enumeration). -/
theorem publishBuildStatus_rejects_invalid (projectPath pipelineID
    commitSHA : String) (status : GitLabStatus)
    (gitlabToken buildURL : String) (hostOk : Bool)
    (h : status.IsValid = false) :
    Branch.publishBuildStatus projectPath pipelineID commitSHA status
      gitlabToken buildURL hostOk = ([], RunResult.fatal) ∧
    (Branch2.publishBuildStatus projectPath pipelineID commitSHA status
      gitlabToken buildURL hostOk).1 =
      [NetCall.statusREST commitSHA status pipelineID] :=
  ⟨by rw [Branch.publishBuildStatus, if_pos h], rfl⟩

/-- Witness for C6 (amended) at the invalid status `"bogus"`. -/
theorem publishBuildStatus_rejects_invalid_witness :
    Branch.publishBuildStatus "group/proj" "42" "abc123" "bogus" "token"
      "https://example.com/build/1" true = ([], RunResult.fatal) ∧
    (Branch2.publishBuildStatus "group/proj" "42" "abc123" "bogus" "token"
      "https://example.com/build/1" true).1 =
      [NetCall.statusREST "abc123" "bogus" "42"] :=
  publishBuildStatus_rejects_invalid "group/proj" "42" "abc123" "bogus"
    "token" "https://example.com/build/1" true (by decide)

/-! ## Claim C2 -/

/-- Environment of a fully-configured by-commit run with a successful build
outcome. -/
def envCommitRun : Commit.Env :=
  ⟨"group/proj", "feature", "deploy", "token", "0", "abc123",
   "https://app.bitrise.io/build/1", "true"⟩

/-- Graph of the by-commit run: one pipeline owning the job `deploy`. -/
def gCommitRun : Commit.Graph :=
  ⟨[⟨"gid://gitlab/Ci::Pipeline/42", "42", "running",
     [⟨"gid://gitlab/Ci::Build/77", "deploy", "manual", true⟩]⟩]⟩

/-- C2 fails on the by-commit variant (part_001): its `publishBuildStatus`
call is commented out in the source while the comment announcing it remains,
so a successful run performs the job trigger with no status publish at all —
the trace contains one trigger invocation and zero publish invocations. -/
theorem commit_main_triggers_without_publish :
    Commit.main envCommitRun gCommitRun true =
      ([Event.trigger "gid://gitlab/Ci::Build/77"], RunResult.ok) ∧
    publishCalls (Commit.main envCommitRun gCommitRun true).1 = [] ∧
    triggerCalls (Commit.main envCommitRun gCommitRun true).1 =
      ["gid://gitlab/Ci::Build/77"] := by
  refine ⟨rfl, rfl, rfl⟩

/-! ## Claim C9 -/

/-- C9: in the by-commit variant, `fetchEnvVars` treats the commit SHA as
optional (it succeeds and returns a `none` pointer when `bitrise_git_commit`
is unset while all required variables are set), yet `main` dereferences that
pointer unconditionally to build the pipeline query, so the run panics
instead of failing fast with a configuration error. -/
theorem commit_run_panics_without_sha (e : Commit.Env) (g : Commit.Graph)
    (triggerOk : Bool)
    (h1 : e.gitlab_project_path ≠ "") (h2 : e.gitlab_job_name ≠ "")
    (h3 : e.gitlab_token ≠ "") (h4 : e.bitrise_build_url ≠ "")
    (h5 : e.bitrise_git_commit = "") :
    (∃ v, Commit.fetchEnvVars e = some v ∧ v.buildSHA = none) ∧
    Commit.main e g triggerOk = ([], RunResult.panicked) := by
  have hfe : Commit.fetchEnvVars e = some
      { projectPath := e.gitlab_project_path
        branchName := if e.pr = "false" then none
          else some e.gitlab_branch_name
        jobName := e.gitlab_job_name
        gitlabToken := e.gitlab_token
        buildStatus := e.bitrise_build_status
        buildSHA := none
        buildURL := e.bitrise_build_url } := by
    simp [Commit.fetchEnvVars, h1, h2, h3, h4, h5]
  exact ⟨⟨_, hfe, rfl⟩, by simp [Commit.main, hfe]⟩

/-- Environment with every required variable set but no commit SHA. -/
def envNoSHA : Commit.Env :=
  ⟨"group/proj", "feature", "deploy", "token", "0", "",
   "https://app.bitrise.io/build/1", "true"⟩

/-- Witness for C9 at a concrete environment without a commit SHA. -/
theorem commit_run_panics_without_sha_witness :
    (∃ v, Commit.fetchEnvVars envNoSHA = some v ∧ v.buildSHA = none) ∧
    Commit.main envNoSHA ⟨[]⟩ true = ([], RunResult.panicked) :=
  commit_run_panics_without_sha envNoSHA ⟨[]⟩ true (by decide) (by decide)
    (by decide) (by decide) rfl

/-! ## Claim C8 -/

/-- C8: in a run whose environment is complete, whose resolution succeeds
and whose publish succeeds (`publishOk = true`), both main.go variants
invoke the job trigger exactly once, with the resolved job id, when the
build outcome is `"0"` (which publishes success), and never invoke it for
any other outcome (for example `"1"`, which publishes failed). -/
theorem run_triggers_exactly_on_success (gA : MR.Graph) (gB : Branch.Graph)
    (projectPath mergeRequestIID branchName jobName gitlabToken buildStatus
      buildSHA buildURL : String) (triggerOk : Bool)
    (henv : projectPath ≠ "" ∧ mergeRequestIID ≠ "" ∧ branchName ≠ "" ∧
      jobName ≠ "" ∧ gitlabToken ≠ "" ∧ buildStatus ≠ "" ∧ buildSHA ≠ "" ∧
      buildURL ≠ "")
    (hresA : MR.findJobID gA jobName ≠ "" ∧ MR.findPipelineID gA ≠ "")
    (hresB : (Branch.findJobAndPipeline gB jobName).1 ≠ "" ∧
      (Branch.findJobAndPipeline gB jobName).2 ≠ "") :
    (buildStatus = "0" →
       triggerCalls (MR.main gA projectPath mergeRequestIID jobName
           gitlabToken buildStatus buildSHA true triggerOk).1 =
         [MR.findJobID gA jobName] ∧
       triggerCalls (Branch.main gB projectPath branchName jobName
           gitlabToken buildStatus buildSHA buildURL true triggerOk).1 =
         [(Branch.findJobAndPipeline gB jobName).1]) ∧
    (buildStatus ≠ "0" →
       triggerCalls (MR.main gA projectPath mergeRequestIID jobName
           gitlabToken buildStatus buildSHA true triggerOk).1 = [] ∧
       triggerCalls (Branch.main gB projectPath branchName jobName
           gitlabToken buildStatus buildSHA buildURL true triggerOk).1 =
         []) := by
  obtain ⟨hpp, hmr, hbn, hjn, htk, hbs, hsha, hurl⟩ := henv
  obtain ⟨hja, hpa⟩ := hresA
  obtain ⟨hjb, hpb⟩ := hresB
  have hvalid : (buildStatusToState buildStatus).IsValid = true := by
    unfold buildStatusToState
    by_cases h0 : buildStatus = "0"
    · rw [if_pos h0]; decide
    · rw [if_neg h0]
      by_cases h1 : buildStatus = "1"
      · rw [if_pos h1]; decide
      · rw [if_neg h1]; decide
  have hsucc : buildStatus ≠ "0" →
      ¬buildStatusToState buildStatus = GitLabStatus.Success := by
    intro h0
    unfold buildStatusToState
    rw [if_neg h0]
    by_cases h1 : buildStatus = "1"
    · rw [if_pos h1]; decide
    · rw [if_neg h1]; decide
  constructor
  · intro h0
    subst h0
    constructor
    · simp [MR.main, hpp, hmr, hjn, htk, hsha, hpa, hja, triggerCalls]
    · have hsv : GitLabStatus.Success.IsValid = true := by decide
      simp [Branch.main, hpp, hbn, hjn, htk, hsha, hurl, hjb, hpb, hsv,
        buildStatusToState, triggerCalls]
  · intro h0
    constructor
    · simp [MR.main, hpp, hmr, hjn, htk, hbs, hsha, hpa, h0, triggerCalls]
    · simp [Branch.main, hpp, hbn, hjn, htk, hsha, hurl, hjb, hpb, hvalid,
        hsucc h0, triggerCalls]

/-- Graph for the C8 witness run of the merge-request variant. -/
def gMRRunW : MR.Graph :=
  ⟨[⟨"42", [⟨"gid://gitlab/Ci::Build/77", "deploy", "manual", true⟩]⟩]⟩

/-- Graph for the C8 witness run of the branch variant. -/
def gBranchRunW : Branch.Graph :=
  ⟨[⟨"8", "gid://gitlab/MergeRequest/8",
     [⟨"gid://gitlab/Ci::Pipeline/42", "42",
       [⟨"gid://gitlab/Ci::Build/77", "deploy", "manual", true⟩]⟩]⟩]⟩

/-- Witness for C8: concrete runs with outcome `"0"` (one trigger with the
resolved job id) and outcome `"1"` (no trigger). -/
theorem run_triggers_exactly_on_success_witness :
    triggerCalls (MR.main gMRRunW "group/proj" "11" "deploy" "token" "0"
        "abc123" true true).1 = [MR.findJobID gMRRunW "deploy"] ∧
    triggerCalls (Branch.main gBranchRunW "group/proj" "feature" "deploy"
        "token" "0" "abc123" "https://example.com/b" true true).1 =
      [(Branch.findJobAndPipeline gBranchRunW "deploy").1] ∧
    triggerCalls (MR.main gMRRunW "group/proj" "11" "deploy" "token" "1"
        "abc123" true true).1 = [] ∧
    triggerCalls (Branch.main gBranchRunW "group/proj" "feature" "deploy"
        "token" "1" "abc123" "https://example.com/b" true true).1 = [] := by
  have t0 := run_triggers_exactly_on_success gMRRunW gBranchRunW
    "group/proj" "11" "feature" "deploy" "token" "0" "abc123"
    "https://example.com/b" true
    ⟨by decide, by decide, by decide, by decide, by decide, by decide,
     by decide, by decide⟩
    ⟨by decide, by decide⟩ ⟨by decide, by decide⟩
  have t1 := run_triggers_exactly_on_success gMRRunW gBranchRunW
    "group/proj" "11" "feature" "deploy" "token" "1" "abc123"
    "https://example.com/b" true
    ⟨by decide, by decide, by decide, by decide, by decide, by decide,
     by decide, by decide⟩
    ⟨by decide, by decide⟩ ⟨by decide, by decide⟩
  exact ⟨(t0.1 rfl).1, (t0.1 rfl).2, (t1.2 (by decide)).1,
    (t1.2 (by decide)).2⟩
